import Mathlib

/-!
# Verification of the Real-Time Log Analytics ingestion and processing core

Shallow embedding of `src/scripts/log_ingestion.py` (class `LogIngestion`:
`parse_log_line`, `ingest_logs`) and `src/scripts/log_processor.py`
(class `LogProcessor`: `calculate_statistics`, `detect_anomalies`).

Modelling conventions:
* Python strings are `List Char`; the file's text content is a `List Char`
  and byte offsets are character offsets (the source opens the file in text
  mode and uses `f.seek`/`f.tell` positions).
* Python `int` is `Nat`/`Int`; `float` arithmetic of the processor is
  embedded as exact `ℚ`/`ℝ` arithmetic.
* `pymongo`'s `insert_many` is abstracted by a boolean `writeOk` parameter:
  `false` means the bulk write raises an exception, `true` means it succeeds.
* `datetime.now()` side effects (`ingestion_time`, the `timestamp` key of the
  statistics dict) carry no claim content and are omitted from the records.
-/

namespace LogAnalytics

/-! ## Character classes of the regular expression

The regex of `LogIngestion.parse_log_line` uses the classes
`[\d\-\: \.]` (timestamp), `\w` (level, service, user id), `\s`
(padding before pipes), `[\d\.]` (ip address) and `\d` (response time).
The inputs of interest are ASCII; `\w` is modelled as ASCII alphanumeric
plus underscore and `\s` as the ASCII whitespace characters. -/

def isTsChar (c : Char) : Bool :=
  c.isDigit || c = '-' || c = ':' || c = ' ' || c = '.'

def isWordChar (c : Char) : Bool :=
  c.isAlphanum || c = '_'

def isSpaceChar (c : Char) : Bool :=
  c = ' ' || c = '\t' || c = '\n' || c = '\r' || c = '\x0b' || c = '\x0c'

def isIpChar (c : Char) : Bool :=
  c.isDigit || c = '.'

/-- Greedy match of a character class: longest prefix whose characters all
satisfy `p`, together with the remainder (the behaviour of a regex `[..]+`
group followed by a character outside the class). -/
def takeClass (p : Char → Bool) : List Char → List Char × List Char
  | [] => ([], [])
  | c :: cs =>
    if p c then
      let r := takeClass p cs
      (c :: r.1, r.2)
    else ([], c :: cs)

/-- Match a literal character sequence at the head of the input and return
the remainder, or fail. -/
def dropLit : List Char → List Char → Option (List Char)
  | [], s => some s
  | _ :: _, [] => none
  | l :: ls, c :: cs => if c = l then dropLit ls cs else none

/-- A `[..]+` group: greedy class match that must consume at least one
character. -/
def classStep (p : Char → Bool) (s : List Char) : Option (List Char × List Char) :=
  let r := takeClass p s
  if r.1 = [] then none else some r

/-- The regex fragment `\s+\| ` (one or more whitespace characters, a pipe,
a space).  `\s` does not contain `|`, so the greedy whitespace run is
deterministic. -/
def spacedPipe (s : List Char) : Option (List Char) :=
  match classStep isSpaceChar s with
  | none => none
  | some (_, r) => dropLit ['|', ' '] r

/-- The regex fragment `(?P<timestamp>[\d\-\: \.]+) \| ` at the start of the
pattern.  The class contains the space but not the pipe, so of all the
backtracking splits the regex engine could try, exactly one can succeed: the
group must end one character before the end of the greedy class run, that
last character must be the literal space, and the remainder must start with
`|` and a space.  This function is the deterministic equivalent of that
backtracking search. -/
def tsStep (s : List Char) : Option (List Char × List Char) :=
  match classStep isTsChar s with
  | none => none
  | some (p, r) =>
    match r with
    | '|' :: ' ' :: r2 =>
      if p.getLast? = some ' ' ∧ 2 ≤ p.length then some (p.dropLast, r2)
      else none
    | _ => none

/-- Numeric value of a digit string (Python `int(...)` on the captured
digits-only group). -/
def digitsToNat (ds : List Char) : Nat :=
  ds.foldl (fun a c => a * 10 + (c.toNat - '0'.toNat)) 0

/-! ## `datetime.strptime(s, "%Y-%m-%d %H:%M:%S.%f")`

Python's `_strptime` compiles the format to the anchored regex
`\d\d\d\d - (1[0-2]|0[1-9]|[1-9]) - (3[0-1]|[1-2]\d|0[1-9]|[1-9]) sp
(2[0-3]|[0-1]\d|\d) : ([0-5]\d|\d) : (6[0-1]|[0-5]\d|\d) . (\d{1,6})`
which must consume the whole string, and then calls the `datetime`
constructor, which validates the calendar date (day against month length,
year at least 1) and rejects seconds above 59.  Because every separator of
the format is a non-digit, each numeric field of a matching string is a
maximal digit run, so the alternation-with-backtracking of `_strptime` is
equivalent to max-munch digit runs with a length bound and a value range
check; seconds 60 and 61 pass the regex but make the constructor raise, so
both paths are a `ValueError` and are modelled as failure. -/

structure Timestamp where
  year : Nat
  month : Nat
  day : Nat
  hour : Nat
  minute : Nat
  second : Nat
  microsecond : Nat
deriving DecidableEq, Repr

def isLeapYear (y : Nat) : Bool :=
  (y % 4 = 0 && y % 100 ≠ 0) || y % 400 = 0

def daysInMonth (y m : Nat) : Nat :=
  if m = 2 then (if isLeapYear y then 29 else 28)
  else if m = 4 ∨ m = 6 ∨ m = 9 ∨ m = 11 then 30
  else 31

/-- A numeric field of the format: maximal digit run of length between 1 and
`maxLen` whose value lies in `[lo, hi]`. -/
def numField (lo hi maxLen : Nat) (s : List Char) : Option (Nat × List Char) :=
  let r := takeClass Char.isDigit s
  if r.1 ≠ [] ∧ r.1.length ≤ maxLen ∧ lo ≤ digitsToNat r.1 ∧ digitsToNat r.1 ≤ hi
  then some (digitsToNat r.1, r.2) else none

/-- `%Y`: exactly four digits; the `datetime` constructor requires year ≥ 1. -/
def yearField (s : List Char) : Option (Nat × List Char) :=
  let r := takeClass Char.isDigit s
  if r.1.length = 4 ∧ 1 ≤ digitsToNat r.1 then some (digitsToNat r.1, r.2) else none

/-- `%f`: one to six digits, scaled to microseconds. -/
def fracField (s : List Char) : Option (Nat × List Char) :=
  let r := takeClass Char.isDigit s
  if r.1 ≠ [] ∧ r.1.length ≤ 6
  then some (digitsToNat r.1 * 10 ^ (6 - r.1.length), r.2) else none

/-- `datetime.strptime(s, "%Y-%m-%d %H:%M:%S.%f")`: `some` timestamp on
success, `none` when the call raises `ValueError`. -/
def strptime (s : List Char) : Option Timestamp :=
  match yearField s with
  | none => none
  | some (y, s1) =>
  match dropLit ['-'] s1 with
  | none => none
  | some s2 =>
  match numField 1 12 2 s2 with
  | none => none
  | some (mo, s3) =>
  match dropLit ['-'] s3 with
  | none => none
  | some s4 =>
  match numField 1 31 2 s4 with
  | none => none
  | some (d, s5) =>
  match dropLit [' '] s5 with
  | none => none
  | some s6 =>
  match numField 0 23 2 s6 with
  | none => none
  | some (h, s7) =>
  match dropLit [':'] s7 with
  | none => none
  | some s8 =>
  match numField 0 59 2 s8 with
  | none => none
  | some (mi, s9) =>
  match dropLit [':'] s9 with
  | none => none
  | some s10 =>
  match numField 0 59 2 s10 with
  | none => none
  | some (sec, s11) =>
  match dropLit ['.'] s11 with
  | none => none
  | some s12 =>
  match fracField s12 with
  | none => none
  | some (us, s13) =>
  if s13 = [] ∧ d ≤ daysInMonth y mo then
    some ⟨y, mo, d, h, mi, sec, us⟩
  else none

/-! ## `LogIngestion.parse_log_line` -/

/-- One structured log event, the dict built by `parse_log_line`
(`ingestion_time := datetime.now()` is a side effect carrying no claim
content and is omitted). -/
structure Record where
  timestamp : Timestamp
  level : List Char
  service : List Char
  user_id : List Char
  ip_address : List Char
  response_time : Nat
  message : List Char
deriving DecidableEq, Repr

/-- The captured groups of the regex `match.groupdict()` before the
timestamp and response-time conversions. -/
structure RawGroups where
  timestamp : List Char
  level : List Char
  service : List Char
  user_id : List Char
  ip_address : List Char
  response_time : List Char
  message : List Char
deriving DecidableEq, Repr

def userIdLit : List Char := ['U', 's', 'e', 'r', 'I', 'D', ':', ' ']

def ipSepLit : List Char := [' ', '|', ' ', 'I', 'P', ':', ' ']

def respTimeLit : List Char :=
  ['R', 'e', 's', 'p', 'o', 'n', 's', 'e', 'T', 'i', 'm', 'e', ':', ' ']

def msMsgLit : List Char :=
  ['m', 's', ' ', '|', ' ', 'M', 'e', 's', 's', 'a', 'g', 'e', ':', ' ']

/-- `re.match` of the full pattern of `parse_log_line`.  Each `[..]+` or
`\w+` group is followed by a character outside its class, so the greedy
matches are deterministic (the only backtracking point, inside the timestamp
group, is resolved in `tsStep`).  The final group `(?P<message>.+)` greedily
takes every remaining character up to a newline and must be non-empty;
`re.match` does not require the match to reach the end of the string. -/
def parseGroups (s : List Char) : Option RawGroups :=
  (tsStep s).bind fun t1 =>
  (classStep isWordChar t1.2).bind fun t2 =>
  (spacedPipe t2.2).bind fun r3 =>
  (classStep isWordChar r3).bind fun t4 =>
  (spacedPipe t4.2).bind fun r5 =>
  (dropLit userIdLit r5).bind fun r6 =>
  (classStep isWordChar r6).bind fun t7 =>
  (dropLit ipSepLit t7.2).bind fun r8 =>
  (classStep isIpChar r8).bind fun t9 =>
  (spacedPipe t9.2).bind fun r10 =>
  (dropLit respTimeLit r10).bind fun r11 =>
  (classStep Char.isDigit r11).bind fun t12 =>
  (dropLit msMsgLit t12.2).bind fun r13 =>
  (classStep (fun c => !(c = '\n' : Bool)) r13).bind fun t14 =>
  some ⟨t1.1, t2.1, t4.1, t7.1, t9.1, t12.1, t14.1⟩

/-- `LogIngestion.parse_log_line`.  `.ok none` is the `return None` path
(regex mismatch); `.error ()` is the uncaught `ValueError` raised by
`datetime.strptime` when the captured timestamp group does not parse;
`.ok (some r)` is the successful path. -/
def parse_log_line (s : List Char) : Except Unit (Option Record) :=
  match parseGroups s with
  | none => .ok none
  | some g =>
    match strptime g.timestamp with
    | none => .error ()
    | some t =>
      .ok (some ⟨t, g.level, g.service, g.user_id, g.ip_address,
                 digitsToNat g.response_time, g.message⟩)

/-! ## `LogIngestion.ingest_logs`

The file content is a `List Char` and `last_position` a character offset.
`f.seek(pos); f.readlines()` yields the text from `pos` on, split after
each newline with a possibly unterminated final piece, and afterwards
`f.tell()` is `max pos content.length` (seeking beyond the end of the file
keeps the requested position and reads nothing). -/

/-- Accumulator-based splitter matching Python `readlines` (keepends):
`cur` is the reversed portion of the current line read so far. -/
def linesKeepNlAux (cur : List Char) : List Char → List (List Char)
  | [] => if cur = [] then [] else [cur.reverse]
  | c :: cs =>
    if c = '\n' then (cur.reverse ++ ['\n']) :: linesKeepNlAux [] cs
    else linesKeepNlAux (c :: cur) cs

def linesKeepNl (s : List Char) : List (List Char) := linesKeepNlAux [] s

/-- `f.seek(pos); f.readlines()`. -/
def readlinesFrom (content : List Char) (pos : Nat) : List (List Char) :=
  linesKeepNl (content.drop pos)

/-- `f.tell()` after `seek(pos)` followed by `readlines()`. -/
def tellAfter (content : List Char) (pos : Nat) : Nat :=
  max pos content.length

/-- Python `str.strip()`: remove whitespace from both ends. -/
def pyStrip (s : List Char) : List Char :=
  ((s.dropWhile isSpaceChar).reverse.dropWhile isSpaceChar).reverse

/-- The per-line loop of `ingest_logs`: strip each line, skip empty ones,
collect the parsed records in order; an exception from `parse_log_line`
aborts the whole loop (`.error`), exactly as the uncaught `ValueError`
does in the source. -/
def parseBatch : List (List Char) → Except Unit (List Record)
  | [] => .ok []
  | l :: ls =>
    let stripped := pyStrip l
    if stripped = [] then parseBatch ls
    else
      match parse_log_line stripped with
      | .error e => .error e
      | .ok none => parseBatch ls
      | .ok (some r) => (parseBatch ls).map (fun rs => r :: rs)

inductive CycleOutcome where
  | ok
  | storeError
  | parseError
deriving DecidableEq, Repr

/-- Result of one `ingest_logs` call: the new `self.last_position`, the
records handed to `insert_many` on a successful write, and which exit path
was taken (`storeError`/`parseError` are the `except Exception` handler). -/
structure IngestResult where
  newPos : Nat
  written : List Record
  outcome : CycleOutcome
deriving DecidableEq, Repr

/-- `LogIngestion.ingest_logs` on a file whose current text is `content`,
with `self.last_position = lastPosition`; `writeOk` tells whether
`insert_many` succeeds or raises.  The assignment
`self.last_position = f.tell()` is only reached when neither the per-line
loop nor the bulk write raised, so on either failure the cursor keeps its
previous value. -/
def ingest_logs (content : List Char) (lastPosition : Nat) (writeOk : Bool) :
    IngestResult :=
  match parseBatch (readlinesFrom content lastPosition) with
  | .error _ => ⟨lastPosition, [], .parseError⟩
  | .ok parsed =>
    if parsed = [] then ⟨tellAfter content lastPosition, [], .ok⟩
    else if writeOk then ⟨tellAfter content lastPosition, parsed, .ok⟩
    else ⟨lastPosition, [], .storeError⟩

/-- `true` when the parse phase of the cycle completes without an exception
and yields at least one record (the case in which `insert_many` is called). -/
def parsePhaseNonempty (content : List Char) (pos : Nat) : Bool :=
  match parseBatch (readlinesFrom content pos) with
  | .ok (_ :: _) => true
  | _ => false

/-! ## `LogProcessor` (`src/scripts/log_processor.py`)

The analytics functions operate on the list of records that
`get_logs_dataframe` returns for the queried window (the DataFrame rows, in
query order).  All rows come from the ingestion pipeline, so every record
has its `level` and `response_time` fields present and non-null: the
`'response_time' not in df.columns` and `notnull` guards of the source are
always on their positive branch here.  Float arithmetic is embedded as
exact `ℚ`/`ℝ` arithmetic. -/

def qsum (xs : List ℚ) : ℚ := xs.foldr (· + ·) 0

/-- `Series.mean()`. -/
def mean (xs : List ℚ) : ℚ := qsum xs / xs.length

/-- `Series.std()`: pandas uses the sample variance (`ddof=1`), dividing by
`n - 1`.  (The `or 0` in the source only converts the single-row `NaN`
case — unreachable behind the `len(df) < 10` guard — and `0.0` to `0`.) -/
def sampleVar (xs : List ℚ) : ℚ :=
  qsum (xs.map fun x => (x - mean xs) ^ 2) / ((xs.length : ℚ) - 1)

/-- The threshold `avg_response + 2 * std_response` of the high-response-time
rule, with `std` the square root of the sample variance. -/
noncomputable def thresholdR (xs : List ℚ) : ℝ :=
  (mean xs : ℝ) + 2 * Real.sqrt (sampleVar xs)

/-- Decidable form of the comparison `response_time > threshold` used to
build `slow_requests`.  Since the threshold is `mean + 2·√var` with
`var ≥ 0`, the comparison holds iff the sample is above the mean and its
squared deviation exceeds `4·var`; `isSlow_iff_gt_thresholdR` below proves
this form equivalent to the source's comparison against `thresholdR`. -/
def isSlow (xs : List ℚ) (x : ℚ) : Bool :=
  decide (mean xs < x ∧ 4 * sampleVar xs < (x - mean xs) ^ 2)

/-- Python `round(q, 2)` (round half to even at two decimals), on exact
rationals. -/
def roundHalfEven (q : ℚ) : ℤ :=
  if q - ⌊q⌋ < 1 / 2 then ⌊q⌋
  else if 1 / 2 < q - ⌊q⌋ then ⌊q⌋ + 1
  else if ⌊q⌋ % 2 = 0 then ⌊q⌋ else ⌊q⌋ + 1

def round2 (q : ℚ) : ℚ := (roundHalfEven (q * 100) : ℚ) / 100

/-- `round(x, 2)` on the real value of the threshold. -/
noncomputable def roundHalfEvenR (x : ℝ) : ℤ :=
  if x - ⌊x⌋ < 1 / 2 then ⌊x⌋
  else if 1 / 2 < x - ⌊x⌋ then ⌊x⌋ + 1
  else if ⌊x⌋ % 2 = 0 then ⌊x⌋ else ⌊x⌋ + 1

noncomputable def round2R (x : ℝ) : ℝ := (roundHalfEvenR (x * 100) : ℝ) / 100

/-- An entry of the anomaly list built by `detect_anomalies`: either
`{'type': 'High Response Time', 'count': …, 'threshold': …, 'avg_value': …}`
or `{'type': 'High Error Rate', 'rate': …, 'count': …}`. -/
inductive Anomaly where
  | highResponseTime (count : Nat) (threshold : ℝ) (avg_value : ℚ)
  | highErrorRate (rate : ℚ) (count : Nat)

def Anomaly.isHighRespTime : Anomaly → Bool
  | .highResponseTime _ _ _ => true
  | .highErrorRate _ _ => false

def Anomaly.isHighErrRate : Anomaly → Bool
  | .highResponseTime _ _ _ => false
  | .highErrorRate _ _ => true

def errorLevel : List Char := ['E', 'R', 'R', 'O', 'R']

def criticalLevel : List Char := ['C', 'R', 'I', 'T', 'I', 'C', 'A', 'L']

/-- The `response_time` column of the window's DataFrame. -/
def respTimes (rs : List Record) : List ℚ :=
  rs.map fun r => (r.response_time : ℚ)

/-- `len(df[df['level'] == 'ERROR'])` — the error-rate rule counts only
`ERROR`, not `CRITICAL`. -/
def errorOnlyCount (rs : List Record) : Nat :=
  (rs.filter fun r => decide (r.level = errorLevel)).length

/-- `error_rate = (len(df[df['level'] == 'ERROR']) / len(df)) * 100`. -/
def error_rate (rs : List Record) : ℚ :=
  ((errorOnlyCount rs : ℚ) / (rs.length : ℚ)) * 100

/-- `LogProcessor.detect_anomalies` on the records of the queried window.
The guard `df.empty or len(df) < 10 or 'response_time' not in df.columns`
reduces to `len < 10`, and `df['response_time'].notnull().any()` is true,
because the records are fully populated (see the section comment). -/
noncomputable def detect_anomalies (rs : List Record) : List Anomaly :=
  if rs.length < 10 then []
  else
    (if 0 < ((respTimes rs).filter (isSlow (respTimes rs))).length then
        [Anomaly.highResponseTime
          ((respTimes rs).filter (isSlow (respTimes rs))).length
          (round2R (thresholdR (respTimes rs)))
          (round2 (mean ((respTimes rs).filter (isSlow (respTimes rs)))))]
      else []) ++
    (if 15 < error_rate rs then
        [Anomaly.highErrorRate (round2 (error_rate rs)) (errorOnlyCount rs)]
      else [])

/-! ### `LogProcessor.calculate_statistics` -/

/-- `Series.value_counts().to_dict()`: distinct values with their
multiplicities, ordered by descending count (modelled as a stable
descending sort over first-occurrence order). -/
def insertByCountDesc (p : List Char × Nat) :
    List (List Char × Nat) → List (List Char × Nat)
  | [] => [p]
  | q :: t => if q.2 < p.2 then p :: q :: t else q :: insertByCountDesc p t

def sortByCountDesc : List (List Char × Nat) → List (List Char × Nat)
  | [] => []
  | a :: t => insertByCountDesc a (sortByCountDesc t)

def value_counts (xs : List (List Char)) : List (List Char × Nat) :=
  sortByCountDesc ((xs.eraseDups).map fun v => (v, xs.count v))

def listMax : List ℚ → Option ℚ
  | [] => none
  | x :: t => some (t.foldl max x)

def listMin : List ℚ → Option ℚ
  | [] => none
  | x :: t => some (t.foldl min x)

/-- The statistics dict built by `calculate_statistics` (its `timestamp`
key, `datetime.now().isoformat()`, carries no claim content and is
omitted). -/
structure Stats where
  total_logs : Nat
  log_levels : List (List Char × Nat)
  services : List (List Char × Nat)
  avg_response_time : Option ℚ
  max_response_time : Option ℚ
  min_response_time : Option ℚ
  error_count : Nat
deriving DecidableEq, Repr

/-- `LogProcessor.calculate_statistics` on the records of the queried
window: `None` when the DataFrame is empty, otherwise the statistics dict.
The column-missing safeguard and the `isnull().all()` guards are on their
positive branches because every record is fully populated. -/
def calculate_statistics (rs : List Record) : Option Stats :=
  if rs = [] then none
  else
    some
      { total_logs := rs.length
        log_levels := value_counts (rs.map (·.level))
        services := value_counts (rs.map (·.service))
        avg_response_time := some (mean (respTimes rs))
        max_response_time := listMax (respTimes rs)
        min_response_time := listMin (respTimes rs)
        error_count :=
          (rs.filter fun r =>
            decide (r.level = errorLevel ∨ r.level = criticalLevel)).length }

/-! ## Concrete sample data used by the witnesses and counterexamples -/

/-- A well-formed log line in the format of `log_generator.py`. -/
def sampleLine : List Char :=
  "2024-01-01 10:00:00.123 | INFO | AuthService | UserID: USER_1234 | IP: 192.168.0.1 | ResponseTime: 250ms | Message: User logged in".toList

/-- The record `parse_log_line` produces from `sampleLine`. -/
def sampleRecord : Record :=
  ⟨⟨2024, 1, 1, 10, 0, 0, 123000⟩, "INFO".toList, "AuthService".toList,
   "USER_1234".toList, "192.168.0.1".toList, 250, "User logged in".toList⟩

/-- A second well-formed line, differing in message and response time. -/
def sampleLineB : List Char :=
  "2024-01-01 10:00:00.124 | INFO | PaymentService | UserID: USER_2222 | IP: 10.0.0.7 | ResponseTime: 310ms | Message: Payment processed".toList

def sampleRecordB : Record :=
  ⟨⟨2024, 1, 1, 10, 0, 0, 124000⟩, "INFO".toList, "PaymentService".toList,
   "USER_2222".toList, "10.0.0.7".toList, 310, "Payment processed".toList⟩

/-- A line matching the regex grammar whose timestamp field `"9999"` is not
parsable by `strptime` — `parse_log_line` raises on it. -/
def badTimestampLine : List Char :=
  "9999 | INFO | AuthService | UserID: USER_1 | IP: 1.2.3.4 | ResponseTime: 5ms | Message: bad".toList

/-- A line matching the regex grammar whose level token `"HELLO"` is not one
of the five enum values. -/
def helloLevelLine : List Char :=
  "2024-01-01 10:00:00.123 | HELLO | AuthService | UserID: USER_1 | IP: 1.2.3.4 | ResponseTime: 10ms | Message: hi".toList

def helloLevelRecord : Record :=
  ⟨⟨2024, 1, 1, 10, 0, 0, 123000⟩, "HELLO".toList, "AuthService".toList,
   "USER_1".toList, "1.2.3.4".toList, 10, "hi".toList⟩

/-- The five level values of the spec's enum. -/
def levelEnum : List (List Char) :=
  ["DEBUG".toList, "INFO".toList, "WARNING".toList, "ERROR".toList,
   "CRITICAL".toList]

/-- A synthetic record of the analytics window. -/
def mkRec (lvl : List Char) (rt : Nat) : Record :=
  ⟨⟨2024, 1, 1, 10, 0, 0, 0⟩, lvl, "AuthService".toList, "USER_1".toList,
   "1.2.3.4".toList, rt, "msg".toList⟩

/-- The response-time example of the spec: nine samples of 100 ms and one of
5000 ms. -/
def c7List : List Record :=
  List.replicate 9 (mkRec "INFO".toList 100) ++ [mkRec "INFO".toList 5000]

/-- The error-rate example of the spec: 20 records, 4 of them `ERROR`. -/
def c8List : List Record :=
  List.replicate 16 (mkRec "INFO".toList 100) ++
    List.replicate 4 (mkRec errorLevel 100)

/-! ## Lemmas about the grammar steps -/

theorem takeClass_append (p : Char → Bool) (xs ys : List Char)
    (h1 : ∀ c ∈ xs, p c = true)
    (h2 : ∀ y t, ys = y :: t → p y = false) :
    takeClass p (xs ++ ys) = (xs, ys) := by
  induction xs with
  | nil =>
    cases ys with
    | nil => rfl
    | cons y t => simp [takeClass, h2 y t rfl]
  | cons c cs ih =>
    have hc : p c = true := h1 c (List.mem_cons_self c cs)
    have ih' := ih fun d hd => h1 d (List.mem_cons_of_mem c hd)
    simp [takeClass, hc, ih']

theorem takeClass_sound (p : Char → Bool) (s : List Char) :
    ∀ c ∈ (takeClass p s).1, p c = true := by
  induction s with
  | nil => intro c hc; simp [takeClass] at hc
  | cons a t ih =>
    intro c hc
    by_cases ha : p a = true
    · simp [takeClass, ha] at hc
      rcases hc with rfl | hc
      · exact ha
      · exact ih c hc
    · simp [takeClass, Bool.of_not_eq_true ha] at hc

theorem dropLit_self (ls rest : List Char) :
    dropLit ls (ls ++ rest) = some rest := by
  induction ls with
  | nil => rfl
  | cons c cs ih => simp [dropLit, ih]

theorem classStep_append (p : Char → Bool) (xs ys : List Char)
    (h0 : xs ≠ [])
    (h1 : ∀ c ∈ xs, p c = true)
    (h2 : ∀ y t, ys = y :: t → p y = false) :
    classStep p (xs ++ ys) = some (xs, ys) := by
  simp [classStep, takeClass_append p xs ys h1 h2, h0]

theorem classStep_sound (p : Char → Bool) (s a r : List Char)
    (h : classStep p s = some (a, r)) :
    a ≠ [] ∧ ∀ c ∈ a, p c = true := by
  unfold classStep at h
  by_cases h0 : (takeClass p s).1 = []
  · simp [h0] at h
  · simp [h0] at h
    have ha : (takeClass p s).1 = a := by rw [h]
    refine ⟨?_, ?_⟩
    · rw [← ha]; exact h0
    · intro c hc; rw [← ha] at hc; exact takeClass_sound p s c hc

theorem spacedPipe_append (sp r : List Char)
    (h0 : sp ≠ [])
    (h1 : ∀ c ∈ sp, isSpaceChar c = true) :
    spacedPipe (sp ++ '|' :: ' ' :: r) = some r := by
  have hcs : classStep isSpaceChar (sp ++ '|' :: ' ' :: r) =
      some (sp, '|' :: ' ' :: r) := by
    refine classStep_append _ _ _ h0 h1 ?_
    intro y t hy
    cases hy
    rfl
  simp [spacedPipe, hcs]
  exact dropLit_self ['|', ' '] r

theorem tsStep_append (ts r : List Char)
    (h0 : ts ≠ [])
    (h1 : ∀ c ∈ ts, isTsChar c = true) :
    tsStep (ts ++ ' ' :: '|' :: ' ' :: r) = some (ts, r) := by
  have heq : ts ++ ' ' :: '|' :: ' ' :: r = (ts ++ [' ']) ++ '|' :: ' ' :: r := by
    simp
  have hall : ∀ c ∈ ts ++ [' '], isTsChar c = true := by
    intro c hc
    rcases List.mem_append.mp hc with hc | hc
    · exact h1 c hc
    · simp at hc; subst hc; rfl
  have hcs : classStep isTsChar ((ts ++ [' ']) ++ '|' :: ' ' :: r) =
      some (ts ++ [' '], '|' :: ' ' :: r) := by
    refine classStep_append _ _ _ (by simp) hall ?_
    intro y t hy
    cases hy
    rfl
  have hlast : (ts ++ [' ']).getLast? = some ' ' := by
    simp [List.getLast?_append]
  have hlen : 2 ≤ (ts ++ [' ']).length := by
    have : 1 ≤ ts.length := List.length_pos.mpr h0
    simp
    omega
  rw [tsStep, heq, hcs]
  simp [hlast, hlen]
  exact h0

theorem isWordChar_of_space (c : Char) (h : isSpaceChar c = true) :
    isWordChar c = false := by
  simp [isSpaceChar] at h
  rcases h with ((((rfl | rfl) | rfl) | rfl) | rfl) | rfl <;> rfl

theorem isIpChar_of_space (c : Char) (h : isSpaceChar c = true) :
    isIpChar c = false := by
  simp [isSpaceChar] at h
  rcases h with ((((rfl | rfl) | rfl) | rfl) | rfl) | rfl <;> rfl

theorem append_head_mem {α : Type} {xs : List α} (ys : List α) (h0 : xs ≠ []) :
    ∀ y t, xs ++ ys = y :: t → y ∈ xs := by
  cases xs with
  | nil => exact absurd rfl h0
  | cons a l =>
    intro y t h
    simp at h
    rw [← h.1]
    exact List.mem_cons_self a l

/-- The decomposition of a line that matches the full pipe-delimited
grammar of `parse_log_line`: the seven field substrings joined by the
pattern's literal separators, with the `\s+` runs before the second, third
and fifth pipes explicit (`sp1`, `sp2`, `sp3`). -/
def formatLine (ts lvl sp1 svc sp2 uid ip sp3 rt msg : List Char) : List Char :=
  ts ++ ' ' :: '|' :: ' ' ::
  (lvl ++ (sp1 ++ '|' :: ' ' ::
  (svc ++ (sp2 ++ '|' :: ' ' ::
  (userIdLit ++ (uid ++
  (ipSepLit ++ (ip ++ (sp3 ++ '|' :: ' ' ::
  (respTimeLit ++ (rt ++
  (msMsgLit ++ msg))))))))))))

theorem parseGroups_round_trip
    (ts lvl sp1 svc sp2 uid ip sp3 rt msg : List Char)
    (hts0 : ts ≠ []) (hts : ∀ c ∈ ts, isTsChar c = true)
    (hlvl0 : lvl ≠ []) (hlvl : ∀ c ∈ lvl, isWordChar c = true)
    (hsp10 : sp1 ≠ []) (hsp1 : ∀ c ∈ sp1, isSpaceChar c = true)
    (hsvc0 : svc ≠ []) (hsvc : ∀ c ∈ svc, isWordChar c = true)
    (hsp20 : sp2 ≠ []) (hsp2 : ∀ c ∈ sp2, isSpaceChar c = true)
    (huid0 : uid ≠ []) (huid : ∀ c ∈ uid, isWordChar c = true)
    (hip0 : ip ≠ []) (hip : ∀ c ∈ ip, isIpChar c = true)
    (hsp30 : sp3 ≠ []) (hsp3 : ∀ c ∈ sp3, isSpaceChar c = true)
    (hrt0 : rt ≠ []) (hrt : ∀ c ∈ rt, Char.isDigit c = true)
    (hmsg0 : msg ≠ []) (hmsg : '\n' ∉ msg) :
    parseGroups (formatLine ts lvl sp1 svc sp2 uid ip sp3 rt msg) =
      some ⟨ts, lvl, svc, uid, ip, rt, msg⟩ := by
  have hw1 : ∀ (zs : List Char) y t, sp1 ++ zs = y :: t → isWordChar y = false :=
    fun zs y t hy => isWordChar_of_space y (hsp1 y (append_head_mem zs hsp10 y t hy))
  have hw2 : ∀ (zs : List Char) y t, sp2 ++ zs = y :: t → isWordChar y = false :=
    fun zs y t hy => isWordChar_of_space y (hsp2 y (append_head_mem zs hsp20 y t hy))
  have hi3 : ∀ (zs : List Char) y t, sp3 ++ zs = y :: t → isIpChar y = false :=
    fun zs y t hy => isIpChar_of_space y (hsp3 y (append_head_mem zs hsp30 y t hy))
  have hIpSep : ∀ (zs : List Char) y t, ipSepLit ++ zs = y :: t →
      isWordChar y = false := by
    intro zs y t hy
    simp [ipSepLit] at hy
    rw [← hy.1]
    rfl
  have hMs : ∀ (zs : List Char) y t, msMsgLit ++ zs = y :: t →
      Char.isDigit y = false := by
    intro zs y t hy
    simp [msMsgLit] at hy
    rw [← hy.1]
    rfl
  have hmsgAll : ∀ c ∈ msg, (fun c => !(c = '\n' : Bool)) c = true := by
    intro c hc
    simp
    intro h
    exact hmsg (h ▸ hc)
  have hmsgStep : classStep (fun c => !(c = '\n' : Bool)) msg = some (msg, []) := by
    have h := classStep_append (fun c => !(c = '\n' : Bool)) msg [] hmsg0 hmsgAll
      (fun y t hy => nomatch hy)
    simpa using h
  unfold formatLine parseGroups
  rw [tsStep_append ts _ hts0 hts]
  simp only [Option.bind]
  rw [classStep_append isWordChar lvl _ hlvl0 hlvl (hw1 _)]
  simp only [Option.bind]
  rw [spacedPipe_append sp1 _ hsp10 hsp1]
  simp only [Option.bind]
  rw [classStep_append isWordChar svc _ hsvc0 hsvc (hw2 _)]
  simp only [Option.bind]
  rw [spacedPipe_append sp2 _ hsp20 hsp2]
  simp only [Option.bind]
  rw [dropLit_self userIdLit _]
  simp only [Option.bind]
  rw [classStep_append isWordChar uid _ huid0 huid (hIpSep _)]
  simp only [Option.bind]
  rw [dropLit_self ipSepLit _]
  simp only [Option.bind]
  rw [classStep_append isIpChar ip _ hip0 hip (hi3 _)]
  simp only [Option.bind]
  rw [spacedPipe_append sp3 _ hsp30 hsp3]
  simp only [Option.bind]
  rw [dropLit_self respTimeLit _]
  simp only [Option.bind]
  rw [classStep_append Char.isDigit rt _ hrt0 hrt (hMs _)]
  simp only [Option.bind]
  rw [dropLit_self msMsgLit _]
  simp only [Option.bind]
  rw [hmsgStep]

/-! ## Lemmas about the tailing reader -/

theorem linesKeepNlAux_no_nl (s : List Char) (h0 : s ≠ []) (h : '\n' ∉ s) :
    ∀ cur, linesKeepNlAux cur s = [cur.reverse ++ s] := by
  induction s with
  | nil => exact absurd rfl h0
  | cons c cs ih =>
    intro cur
    have hc : ¬c = '\n' := fun hh => h (hh ▸ List.mem_cons_self c cs)
    cases cs with
    | nil => simp [linesKeepNlAux, hc]
    | cons d ds =>
      have ih' := ih (by simp) (fun hm => h (List.mem_cons_of_mem c hm)) (c :: cur)
      have step : linesKeepNlAux cur (c :: d :: ds) =
          linesKeepNlAux (c :: cur) (d :: ds) := by
        simp only [linesKeepNlAux, if_neg hc]
      rw [step, ih']
      simp

theorem linesKeepNlAux_append_nl (s t : List Char) :
    s.getLast? = some '\n' →
    ∀ cur, linesKeepNlAux cur (s ++ t) =
      linesKeepNlAux cur s ++ linesKeepNlAux [] t := by
  induction s with
  | nil => intro h; simp at h
  | cons c cs ih =>
    intro h cur
    cases cs with
    | nil =>
      simp [List.getLast?] at h
      subst h
      simp [linesKeepNlAux]
    | cons d ds =>
      have h' : (d :: ds).getLast? = some '\n' := by
        simpa [List.getLast?_cons_cons] using h
      by_cases hc : c = '\n'
      · subst hc
        have stepL : linesKeepNlAux cur ('\n' :: (d :: ds ++ t)) =
            (cur.reverse ++ ['\n']) :: linesKeepNlAux [] (d :: ds ++ t) := by
          simp only [linesKeepNlAux, eq_self_iff_true, if_true]
        have stepR : linesKeepNlAux cur ('\n' :: d :: ds) =
            (cur.reverse ++ ['\n']) :: linesKeepNlAux [] (d :: ds) := by
          simp only [linesKeepNlAux, eq_self_iff_true, if_true]
        rw [List.cons_append, stepL, stepR, ih h' []]
        simp
      · have stepL : linesKeepNlAux cur (c :: (d :: ds ++ t)) =
            linesKeepNlAux (c :: cur) (d :: ds ++ t) := by
          simp only [linesKeepNlAux, if_neg hc]
        have stepR : linesKeepNlAux cur (c :: d :: ds) =
            linesKeepNlAux (c :: cur) (d :: ds) := by
          simp only [linesKeepNlAux, if_neg hc]
        rw [List.cons_append, stepL, stepR, ih h' (c :: cur)]

/-- Splitting the content at its final newline: the unterminated trailing
piece is returned as a line of its own by `readlines`. -/
theorem readlines_partial_line (pre tail : List Char)
    (h0 : tail ≠ []) (hnl : '\n' ∉ tail) :
    readlinesFrom (pre ++ '\n' :: tail) 0 =
      linesKeepNl (pre ++ ['\n']) ++ [tail] := by
  have hsplit : pre ++ '\n' :: tail = (pre ++ ['\n']) ++ tail := by simp
  have hlast : (pre ++ ['\n']).getLast? = some '\n' := by
    simp [List.getLast?_concat]
  rw [readlinesFrom, List.drop_zero, hsplit, linesKeepNl,
      linesKeepNlAux_append_nl _ _ hlast [],
      linesKeepNlAux_no_nl tail h0 hnl []]
  rfl

/-- On every cycle that takes the normal exit (no exception), the cursor is
set to `f.tell()`, the end of the file (or the old position if it was
already beyond the end). -/
theorem ingest_logs_newPos_of_ok (content : List Char) (pos : Nat)
    (writeOk : Bool)
    (h : (ingest_logs content pos writeOk).outcome = CycleOutcome.ok) :
    (ingest_logs content pos writeOk).newPos = max pos content.length := by
  unfold ingest_logs at h ⊢
  cases hp : parseBatch (readlinesFrom content pos) with
  | error e => rw [hp] at h; simp at h
  | ok parsed =>
    by_cases he : parsed = []
    · simp [he, tellAfter]
    · cases writeOk with
      | true => simp [he, tellAfter]
      | false => rw [hp] at h; simp [he] at h

/-! ## Lemmas about the analytics engine -/

theorem qsum_cons (a : ℚ) (t : List ℚ) : qsum (a :: t) = a + qsum t := rfl

theorem qsum_nonneg (xs : List ℚ) (h : ∀ x ∈ xs, 0 ≤ x) : 0 ≤ qsum xs := by
  induction xs with
  | nil => simp [qsum]
  | cons a t ih =>
    have ha := h a (List.mem_cons_self a t)
    have ht := ih fun x hx => h x (List.mem_cons_of_mem a hx)
    rw [qsum_cons]
    linarith

theorem sampleVar_nonneg (xs : List ℚ) : 0 ≤ sampleVar xs := by
  match xs with
  | [] => norm_num [sampleVar, qsum]
  | [x] =>
    have hm : mean [x] = x := by simp [mean, qsum_cons, qsum]
    simp [sampleVar, hm, qsum_cons, qsum]
  | x :: y :: t =>
    have hnum : 0 ≤ qsum ((x :: y :: t).map fun z => (z - mean (x :: y :: t)) ^ 2) := by
      refine qsum_nonneg _ ?_
      intro z hz
      simp only [List.mem_map] at hz
      obtain ⟨w, _, rfl⟩ := hz
      positivity
    have hden : (0 : ℚ) ≤ ((x :: y :: t).length : ℚ) - 1 := by
      simp only [List.length_cons]
      push_cast
      linarith [Nat.cast_nonneg (α := ℚ) t.length]
    exact div_nonneg hnum hden

/-- The decidable comparison `isSlow` coincides with the source's
comparison of the response time against `mean + 2·std`. -/
theorem isSlow_iff_gt_thresholdR (xs : List ℚ) (x : ℚ) :
    isSlow xs x = true ↔ thresholdR xs < (x : ℝ) := by
  have hv : (0 : ℚ) ≤ sampleVar xs := sampleVar_nonneg xs
  have hvR : (0 : ℝ) ≤ ((sampleVar xs : ℚ) : ℝ) := by exact_mod_cast hv
  have hs : Real.sqrt ((sampleVar xs : ℚ) : ℝ) ^ 2 = ((sampleVar xs : ℚ) : ℝ) :=
    Real.sq_sqrt hvR
  have hsn : (0 : ℝ) ≤ Real.sqrt ((sampleVar xs : ℚ) : ℝ) := Real.sqrt_nonneg _
  rw [isSlow, decide_eq_true_eq, thresholdR]
  constructor
  · rintro ⟨h1, h2⟩
    have h1R : ((mean xs : ℚ) : ℝ) < (x : ℝ) := by exact_mod_cast h1
    have h2R : 4 * ((sampleVar xs : ℚ) : ℝ) <
        ((x : ℝ) - ((mean xs : ℚ) : ℝ)) ^ 2 := by exact_mod_cast h2
    nlinarith [hs, hsn, h1R, h2R]
  · intro h
    have h1R : ((mean xs : ℚ) : ℝ) < (x : ℝ) := by nlinarith [hsn]
    have h2R : 4 * ((sampleVar xs : ℚ) : ℝ) <
        ((x : ℝ) - ((mean xs : ℚ) : ℝ)) ^ 2 := by nlinarith [hs, hsn]
    exact ⟨by exact_mod_cast h1R, by exact_mod_cast h2R⟩

/-! ## Claim theorems -/

/-- Claim C1: in every ingestion cycle whose parse phase yields a non-empty
batch, if the bulk store write fails then `ingest_logs` leaves the cursor
(`last_position`) exactly as it was, nothing is written, and the next cycle
therefore re-reads the same bytes from the same offset. -/
theorem C1_write_failure_leaves_cursor (content : List Char) (pos : Nat)
    (h : parsePhaseNonempty content pos = true) :
    ingest_logs content pos false = ⟨pos, [], CycleOutcome.storeError⟩ := by
  unfold parsePhaseNonempty at h
  unfold ingest_logs
  cases hp : parseBatch (readlinesFrom content pos) with
  | error e => rw [hp] at h; simp at h
  | ok parsed =>
    rw [hp] at h
    cases parsed with
    | nil => simp at h
    | cons r rest => simp

set_option maxRecDepth 10000 in
/-- Witness for C1: a one-line file at offset 0 parses to a non-empty
batch, and the failing write leaves the cursor at 0. -/
theorem C1_witness :
    parsePhaseNonempty (sampleLine ++ ['\n']) 0 = true ∧
    ingest_logs (sampleLine ++ ['\n']) 0 false =
      ⟨0, [], CycleOutcome.storeError⟩ :=
  ⟨by decide, C1_write_failure_leaves_cursor (sampleLine ++ ['\n']) 0 (by decide)⟩

set_option maxRecDepth 10000 in
/-- Claim C2 (code bug): a cycle whose batch contains a line with a
regex-matching but `strptime`-unparsable timestamp (`"9999"`) raises
`ValueError` out of `parse_log_line`; the whole cycle is aborted by the
outer `except` — the well-formed lines before and after it are not written
and the cursor does not advance, contradicting the claim that a bad line
never prevents ingestion of the other lines of the batch. -/
theorem C2_bad_timestamp_aborts_cycle :
    ingest_logs
        (sampleLine ++ '\n' :: badTimestampLine ++ '\n' :: sampleLineB ++ ['\n'])
        0 true =
      ⟨0, [], CycleOutcome.parseError⟩ := by decide

set_option maxRecDepth 10000 in
/-- Claim C3 counterexample: on a file whose content is a terminated line
followed by an unterminated (but well-formed) line, `ingest_logs` hands the
trailing partial line to the parser — both records are written — and the
new cursor is the full content length 264, counting the partial line's
bytes, so the next poll does not re-read them.  The claim demands the
partial line be held back and the cursor stop after the first line. -/
theorem C3_counterexample :
    ingest_logs (sampleLine ++ '\n' :: sampleLineB) 0 true =
      ⟨(sampleLine ++ '\n' :: sampleLineB).length,
       [sampleRecord, sampleRecordB], CycleOutcome.ok⟩ := by decide

/-- Claim C3 amended: the trailing partial line (non-empty, newline-free
`tail` after the last terminator) is returned by the reader as a line of
its own — handed to the parser like any other — and a cycle that exits
normally advances the cursor to the full content length, counting the
partial line's bytes. -/
theorem C3_partial_line_consumed (pre tail : List Char) (writeOk : Bool)
    (h0 : tail ≠ []) (hnl : '\n' ∉ tail)
    (hok : (ingest_logs (pre ++ '\n' :: tail) 0 writeOk).outcome =
      CycleOutcome.ok) :
    readlinesFrom (pre ++ '\n' :: tail) 0 =
      linesKeepNl (pre ++ ['\n']) ++ [tail] ∧
    (ingest_logs (pre ++ '\n' :: tail) 0 writeOk).newPos =
      (pre ++ '\n' :: tail).length := by
  refine ⟨readlines_partial_line pre tail h0 hnl, ?_⟩
  rw [ingest_logs_newPos_of_ok _ _ _ hok]
  simp

set_option maxRecDepth 10000 in
/-- Witness for C3 at a concrete content: a terminated valid line followed
by the partial line `"abc"`. -/
theorem C3_witness :
    ("abc".toList ≠ [] ∧ '\n' ∉ "abc".toList) ∧
    readlinesFrom (sampleLine ++ '\n' :: "abc".toList) 0 =
      linesKeepNl (sampleLine ++ ['\n']) ++ ["abc".toList] ∧
    (ingest_logs (sampleLine ++ '\n' :: "abc".toList) 0 true).newPos =
      (sampleLine ++ '\n' :: "abc".toList).length :=
  ⟨⟨by decide, by decide⟩,
   C3_partial_line_consumed sampleLine ("abc".toList) true (by decide)
     (by decide) (by decide)⟩

set_option maxRecDepth 10000 in
/-- Claim C5 counterexample: the file holds one valid, parseable line
(content length 132) but the stored offset 500 exceeds the file size; the
code does not reset the cursor to 0 and does not re-poll — it keeps the
cursor at 500 and ingests nothing, silently skipping the line. -/
theorem C5_counterexample :
    ingest_logs (sampleLine ++ ['\n']) 500 true =
      ⟨500, [], CycleOutcome.ok⟩ := by decide

/-- Claim C5 amended: when the file is smaller than the stored offset,
`ingest_logs` keeps the cursor unchanged (seeking beyond the end reads
nothing), returns no lines, and exits normally; content below the old
offset is skipped rather than re-polled from 0. -/
theorem C5_truncation_keeps_cursor (content : List Char) (pos : Nat)
    (writeOk : Bool) (h : content.length < pos) :
    ingest_logs content pos writeOk = ⟨pos, [], CycleOutcome.ok⟩ := by
  have hdrop : content.drop pos = [] := by
    apply List.drop_eq_nil_of_le
    omega
  have hmax : tellAfter content pos = pos := by
    unfold tellAfter
    omega
  unfold ingest_logs readlinesFrom
  rw [hdrop]
  simp [linesKeepNl, linesKeepNlAux, parseBatch, hmax]

/-- Witness for C5: a two-character file polled at offset 7. -/
theorem C5_witness :
    ("ab".toList).length < 7 ∧
    ingest_logs ("ab".toList) 7 true = ⟨7, [], CycleOutcome.ok⟩ :=
  ⟨by decide, C5_truncation_keeps_cursor ("ab".toList) 7 true (by decide)⟩

/-- Any successfully captured level group is a non-empty word-character
token — and nothing more is checked about it. -/
theorem parseGroups_level_sound (s : List Char) (g : RawGroups)
    (h : parseGroups s = some g) :
    g.level ≠ [] ∧ ∀ c ∈ g.level, isWordChar c = true := by
  unfold parseGroups at h
  simp only [Option.bind_eq_some] at h
  obtain ⟨t1, h1, t2, h2, r3, h3, t4, h4, r5, h5, r6, h6, t7, h7, r8, h8,
    t9, h9, r10, h10, r11, h11, t12, h12, r13, h13, t14, h14, hg⟩ := h
  obtain ⟨lvl, rest2⟩ := t2
  obtain ⟨hne, hall⟩ := classStep_sound isWordChar t1.2 lvl rest2 h2
  cases hg
  exact ⟨hne, hall⟩

set_option maxRecDepth 10000 in
/-- Claim C4 counterexample: a grammar-matching line whose level token is
`"HELLO"` — outside the fixed enum — is accepted by `parse_log_line` and
produces a Record carrying that level. -/
theorem C4_counterexample :
    parse_log_line helloLevelLine = .ok (some helloLevelRecord) ∧
    helloLevelRecord.level ∉ levelEnum := by
  constructor
  · rfl
  · decide

/-- Claim C4 amended: `parse_log_line` performs no enum check on the level
field.  Every produced Record's level is a non-empty word-character token —
that is the only constraint, so levels outside the five enum values are
representable and are written to the store. -/
theorem C4_level_word_token (s : List Char) (r : Record)
    (h : parse_log_line s = .ok (some r)) :
    r.level ≠ [] ∧ ∀ c ∈ r.level, isWordChar c = true := by
  cases hg : parseGroups s with
  | none =>
    rw [parse_log_line, hg] at h
    simp at h
  | some g =>
    have h2 : (match strptime g.timestamp with
        | none => (Except.error () : Except Unit (Option Record))
        | some t =>
          Except.ok (some ⟨t, g.level, g.service, g.user_id, g.ip_address,
            digitsToNat g.response_time, g.message⟩)) = Except.ok (some r) := by
      rw [← h, parse_log_line, hg]
    cases ht : strptime g.timestamp with
    | none => rw [ht] at h2; simp at h2
    | some t =>
      rw [ht] at h2
      simp only [Except.ok.injEq, Option.some.injEq] at h2
      subst h2
      simpa using parseGroups_level_sound s g hg

set_option maxRecDepth 10000 in
/-- Witness for C4's amended statement at the `"HELLO"` line. -/
theorem C4_witness :
    helloLevelRecord.level ≠ [] ∧
    ∀ c ∈ helloLevelRecord.level, isWordChar c = true :=
  C4_level_word_token helloLevelLine helloLevelRecord (by rfl)

/-- Claim C6: for every well-formed line matching the pipe-delimited
grammar (each field drawn from its character class, the timestamp parsable
by `strptime`), `parse_log_line` returns a Record whose level, service,
response time and message equal exactly the corresponding substrings of the
line. -/
theorem C6_parse_round_trip
    (ts lvl sp1 svc sp2 uid ip sp3 rt msg : List Char) (t : Timestamp)
    (hts0 : ts ≠ []) (hts : ∀ c ∈ ts, isTsChar c = true)
    (htime : strptime ts = some t)
    (hlvl0 : lvl ≠ []) (hlvl : ∀ c ∈ lvl, isWordChar c = true)
    (hsp10 : sp1 ≠ []) (hsp1 : ∀ c ∈ sp1, isSpaceChar c = true)
    (hsvc0 : svc ≠ []) (hsvc : ∀ c ∈ svc, isWordChar c = true)
    (hsp20 : sp2 ≠ []) (hsp2 : ∀ c ∈ sp2, isSpaceChar c = true)
    (huid0 : uid ≠ []) (huid : ∀ c ∈ uid, isWordChar c = true)
    (hip0 : ip ≠ []) (hip : ∀ c ∈ ip, isIpChar c = true)
    (hsp30 : sp3 ≠ []) (hsp3 : ∀ c ∈ sp3, isSpaceChar c = true)
    (hrt0 : rt ≠ []) (hrt : ∀ c ∈ rt, Char.isDigit c = true)
    (hmsg0 : msg ≠ []) (hmsg : '\n' ∉ msg) :
    parse_log_line (formatLine ts lvl sp1 svc sp2 uid ip sp3 rt msg) =
      .ok (some ⟨t, lvl, svc, uid, ip, digitsToNat rt, msg⟩) := by
  have hg := parseGroups_round_trip ts lvl sp1 svc sp2 uid ip sp3 rt msg
    hts0 hts hlvl0 hlvl hsp10 hsp1 hsvc0 hsvc hsp20 hsp2 huid0 huid
    hip0 hip hsp30 hsp3 hrt0 hrt hmsg0 hmsg
  unfold parse_log_line
  rw [hg]
  simp [htime]

set_option maxRecDepth 10000 in
/-- Witness for C6: the concrete generator-format line whose fields are
`INFO`, `AuthService`, `250`, `User logged in`. -/
theorem C6_witness :
    parse_log_line (formatLine "2024-01-01 10:00:00.123".toList "INFO".toList
        [' '] "AuthService".toList [' '] "USER_1234".toList
        "192.168.0.1".toList [' '] "250".toList "User logged in".toList) =
      .ok (some ⟨⟨2024, 1, 1, 10, 0, 0, 123000⟩, "INFO".toList,
        "AuthService".toList, "USER_1234".toList, "192.168.0.1".toList,
        digitsToNat "250".toList, "User logged in".toList⟩) :=
  C6_parse_round_trip _ _ _ _ _ _ _ _ _ _ _
    (by decide) (by decide) (by decide) (by decide) (by decide) (by decide)
    (by decide) (by decide) (by decide) (by decide) (by decide) (by decide)
    (by decide) (by decide) (by decide) (by decide) (by decide) (by decide)
    (by decide) (by decide) (by decide)

/-- Claim C9 counterexample: on the empty window `calculate_statistics`
returns `None` — not the claimed defined empty result with all-zero
counts. -/
theorem C9_counterexample :
    calculate_statistics ([] : List Record) = none ∧
    calculate_statistics ([] : List Record) ≠
      some ⟨0, [], [], none, none, none, 0⟩ := by
  constructor
  · rfl
  · intro hc
    simp [calculate_statistics] at hc

/-- Claim C9 amended: `calculate_statistics` never fails — it returns
`None` exactly when zero Records match the window, and a populated
statistics structure otherwise. -/
theorem C9_none_iff_empty (rs : List Record) :
    calculate_statistics rs = none ↔ rs = [] := by
  unfold calculate_statistics
  by_cases h : rs = [] <;> simp [h]

/-- Claim C10: `detect_anomalies` emits at most two entries — at most one
High Response Time entry and at most one High Error Rate entry — however
many records violate either rule. -/
theorem C10_at_most_two (rs : List Record) :
    (detect_anomalies rs).length ≤ 2 ∧
    (detect_anomalies rs).countP Anomaly.isHighRespTime ≤ 1 ∧
    (detect_anomalies rs).countP Anomaly.isHighErrRate ≤ 1 := by
  unfold detect_anomalies
  split_ifs <;>
    simp [List.countP_append, List.countP_cons, Anomaly.isHighRespTime,
      Anomaly.isHighErrRate]

/-! ## The response-time example window -/

/-- The `response_time` column of the example window. -/
def c7resp : List ℚ := List.replicate 9 (100 : ℚ) ++ [5000]

theorem respTimes_c7 : respTimes c7List = c7resp := by
  simp [c7List, respTimes, mkRec, c7resp]

theorem mean_c7 : mean c7resp = 590 := by
  norm_num [c7resp, mean, qsum, List.replicate]

theorem sampleVar_c7 : sampleVar c7resp = 2401000 := by
  norm_num [c7resp, sampleVar, mean, qsum, List.replicate]

theorem isSlow_c7_100 : isSlow c7resp 100 = false := by
  rw [isSlow, mean_c7, sampleVar_c7, decide_eq_false_iff_not]
  norm_num

theorem isSlow_c7_5000 : isSlow c7resp 5000 = true := by
  rw [isSlow, mean_c7, sampleVar_c7, decide_eq_true_eq]
  norm_num

theorem filter_c7 : c7resp.filter (isSlow c7resp) = [(5000 : ℚ)] := by
  show List.filter (isSlow c7resp) (List.replicate 9 (100 : ℚ) ++ [5000]) =
    [(5000 : ℚ)]
  simp [List.replicate, List.filter_append, List.filter_cons,
    isSlow_c7_100, isSlow_c7_5000]

theorem thresholdR_c7_bounds :
    3688 < thresholdR c7resp ∧ thresholdR c7resp < 3690 := by
  have hcast : ((sampleVar c7resp : ℚ) : ℝ) = 2401000 := by
    rw [sampleVar_c7]
    norm_num
  have hlo : (1549 : ℝ) < Real.sqrt ((sampleVar c7resp : ℚ) : ℝ) := by
    rw [hcast]
    rw [show (1549 : ℝ) = Real.sqrt (1549 ^ 2) from
      (Real.sqrt_sq (by norm_num)).symm]
    apply Real.sqrt_lt_sqrt (by positivity)
    norm_num
  have hhi : Real.sqrt ((sampleVar c7resp : ℚ) : ℝ) < 1550 := by
    rw [hcast]
    rw [show (1550 : ℝ) = Real.sqrt (1550 ^ 2) from
      (Real.sqrt_sq (by norm_num)).symm]
    apply Real.sqrt_lt_sqrt (by positivity)
    norm_num
  have hm : ((mean c7resp : ℚ) : ℝ) = 590 := by
    rw [mean_c7]
    norm_num
  unfold thresholdR
  rw [hm]
  constructor <;> nlinarith [hlo, hhi]

/-- Claim C7 counterexample: for the spec's ten samples
`[100 ×9, 5000]` the window mean is 590 — not the claimed 600 — and the
threshold computed by the code lies strictly between 3688 and 3690, far
from the claimed ≈3540 (= 600 + 2·1470 with the population deviation). -/
theorem C7_counterexample :
    mean (respTimes c7List) = 590 ∧
    3688 < thresholdR (respTimes c7List) ∧
    thresholdR (respTimes c7List) < 3690 := by
  rw [respTimes_c7]
  exact ⟨mean_c7, thresholdR_c7_bounds.1, thresholdR_c7_bounds.2⟩

/-- Claim C7 amended: the code uses the sample standard deviation
(`pandas.Series.std()`, `ddof = 1`), so on the example window the mean is
590, the threshold `mean + 2·std` lies in (3688, 3690) ≈ 3689.03, and
exactly one High Response Time anomaly is produced, with count 1 and the
exceeding subset's mean 5000. -/
theorem C7_amended_example :
    detect_anomalies c7List =
      [Anomaly.highResponseTime 1 (round2R (thresholdR (respTimes c7List)))
        5000] ∧
    3688 < thresholdR (respTimes c7List) ∧
    thresholdR (respTimes c7List) < 3690 := by
  rw [respTimes_c7]
  refine ⟨?_, thresholdR_c7_bounds.1, thresholdR_c7_bounds.2⟩
  have hm : round2 (mean [(5000 : ℚ)]) = 5000 := by
    norm_num [mean, qsum, round2, roundHalfEven]
  have herr0 : errorOnlyCount c7List = 0 := by decide
  have herr : ¬(15 : ℚ) < error_rate c7List := by
    rw [error_rate, herr0]
    norm_num
  unfold detect_anomalies
  rw [if_neg (by decide : ¬c7List.length < 10), respTimes_c7, filter_c7,
    if_neg herr, hm]
  simp

/-! ## The error-rate example window -/

theorem errorOnlyCount_c8 : errorOnlyCount c8List = 4 := by decide

theorem error_rate_c8 : error_rate c8List = 20 := by
  rw [error_rate, errorOnlyCount_c8, show c8List.length = 20 from by decide]
  norm_num

/-- Claim C8: on every window with at least 10 records, the High Error Rate
anomaly fires iff the ERROR-only count divided by the total, times 100, is
strictly greater than 15, and when it fires the emitted entry reports that
rate (rounded to two decimals) and that ERROR count. -/
theorem C8_error_rate_rule (rs : List Record) (h : 10 ≤ rs.length) :
    ((∃ a ∈ detect_anomalies rs, a.isHighErrRate = true) ↔
      15 < error_rate rs) ∧
    (15 < error_rate rs →
      Anomaly.highErrorRate (round2 (error_rate rs)) (errorOnlyCount rs) ∈
        detect_anomalies rs) := by
  unfold detect_anomalies
  rw [if_neg (by omega : ¬rs.length < 10)]
  by_cases hslow : 0 < ((respTimes rs).filter (isSlow (respTimes rs))).length <;>
    by_cases hr : (15 : ℚ) < error_rate rs <;>
      simp [hslow, hr, Anomaly.isHighErrRate]

/-- Witness for C8: the 20-record window with 4 ERROR records; its rate is
20 % > 15 %, so the anomaly fires with rate 20.0 and count 4. -/
theorem C8_witness :
    10 ≤ c8List.length ∧
    error_rate c8List = 20 ∧
    errorOnlyCount c8List = 4 ∧
    (((∃ a ∈ detect_anomalies c8List, a.isHighErrRate = true) ↔
        15 < error_rate c8List) ∧
      (15 < error_rate c8List →
        Anomaly.highErrorRate (round2 (error_rate c8List))
            (errorOnlyCount c8List) ∈
          detect_anomalies c8List)) :=
  ⟨by decide, error_rate_c8, errorOnlyCount_c8,
   C8_error_rate_rule c8List (by decide)⟩

end LogAnalytics
